import Mathlib

/-!
Shallow embedding of the `wine_host` bridge of the `rack` repository
(`src/wine_host/protocol.rs` and `src/wine_host/mod.rs`), together with
theorems settling the specification claims about it.

Bytes are modelled as `Nat` values (each meant to lie below 256); byte
buffers are `List Nat`.  32-bit and 64-bit machine integers are `Nat`
with explicit `% 2 ^ 32` where the Rust code truncates (`as u32`).
`f32`/`f64` sample and parameter values are carried as their raw
little-endian bit patterns (the code under study only copies them, so
this is faithful).
-/

set_option maxRecDepth 100000

namespace Rack

/-- Little-endian byte decomposition of a 32-bit value
(models `u32::to_le_bytes`). -/
def u32_to_le_bytes (x : Nat) : List Nat :=
  [x % 256, x / 2 ^ 8 % 256, x / 2 ^ 16 % 256, x / 2 ^ 24 % 256]

/-- Little-endian reassembly of a 32-bit value from the first four bytes
of a buffer (models `u32::from_le_bytes`). -/
def u32_from_le (l : List Nat) : Nat :=
  l.getD 0 0 + 2 ^ 8 * l.getD 1 0 + 2 ^ 16 * l.getD 2 0 + 2 ^ 24 * l.getD 3 0

/-- Little-endian reassembly of a 64-bit value from the first eight bytes
of a buffer (models `f64::from_le_bytes`, keeping the raw bit pattern). -/
def u64_from_le (l : List Nat) : Nat :=
  l.getD 0 0 + 2 ^ 8 * l.getD 1 0 + 2 ^ 16 * l.getD 2 0 + 2 ^ 24 * l.getD 3 0 +
  2 ^ 32 * l.getD 4 0 + 2 ^ 40 * l.getD 5 0 + 2 ^ 48 * l.getD 6 0 + 2 ^ 56 * l.getD 7 0

/-- Protocol magic for requests, `0x484E5752` ("RWNH"). -/
def RACK_WINE_MAGIC : Nat := 0x484E5752

/-- Protocol magic for responses, `0x524E5752` ("RWNR"). -/
def RACK_WINE_RESPONSE_MAGIC : Nat := 0x524E5752

/-- Protocol version. -/
def RACK_WINE_PROTOCOL_VERSION : Nat := 1

/-- Shared-memory magic, `0x52574153` ("RWAS"). -/
def RACK_WINE_SHM_MAGIC : Nat := 0x52574153

/-- Command codes of the wire protocol (`HostCommand` in `protocol.rs`). -/
inductive HostCommand
  | Ping
  | LoadPlugin
  | UnloadPlugin
  | GetInfo
  | Init
  | Process
  | GetParamCount
  | GetParamInfo
  | GetParam
  | SetParam
  | SendMidi
  | GetState
  | SetState
  | OpenEditor
  | CloseEditor
  | GetEditorSize
  | InitAudio
  | ProcessAudio
  | Shutdown
deriving DecidableEq, Repr

/-- Numeric command codes fixed by `#[repr(u32)]` in the source enum. -/
def HostCommand.toU32 : HostCommand → Nat
  | .Ping => 1
  | .LoadPlugin => 2
  | .UnloadPlugin => 3
  | .GetInfo => 4
  | .Init => 5
  | .Process => 6
  | .GetParamCount => 7
  | .GetParamInfo => 8
  | .GetParam => 9
  | .SetParam => 10
  | .SendMidi => 11
  | .GetState => 12
  | .SetState => 13
  | .OpenEditor => 14
  | .CloseEditor => 15
  | .GetEditorSize => 16
  | .InitAudio => 20
  | .ProcessAudio => 21
  | .Shutdown => 99

/-- Response status codes (`Status` in `protocol.rs`). -/
inductive Status
  | Ok
  | Error
  | NotLoaded
  | NotInitialized
  | InvalidParam
deriving DecidableEq, Repr

/-- `impl From<u32> for Status`: any unknown value maps to `Error`. -/
def Status.fromU32 (value : Nat) : Status :=
  if value = 0 then .Ok
  else if value = 1 then .Error
  else if value = 2 then .NotLoaded
  else if value = 3 then .NotInitialized
  else if value = 4 then .InvalidParam
  else .Error

/-- The 16-byte request header (`Header` in `protocol.rs`). -/
structure Header where
  magic : Nat
  version : Nat
  command : Nat
  payload_size : Nat
deriving DecidableEq, Repr

/-- `Header::new`: stamps the wire magic and protocol version. -/
def Header.new (command : HostCommand) (payload_size : Nat) : Header :=
  { magic := RACK_WINE_MAGIC
    version := RACK_WINE_PROTOCOL_VERSION
    command := command.toU32
    payload_size := payload_size }

/-- `Header::to_bytes`: four little-endian u32 fields, 16 bytes. -/
def Header.to_bytes (h : Header) : List Nat :=
  u32_to_le_bytes h.magic ++ u32_to_le_bytes h.version ++
    u32_to_le_bytes h.command ++ u32_to_le_bytes h.payload_size

/-- `Header::from_bytes`: reads four little-endian u32 fields from a
16-byte buffer. -/
def Header.from_bytes (buf : List Nat) : Header :=
  { magic := u32_from_le (buf.take 4)
    version := u32_from_le ((buf.drop 4).take 4)
    command := u32_from_le ((buf.drop 8).take 4)
    payload_size := u32_from_le ((buf.drop 12).take 4) }

lemma u32_to_le_bytes_length (x : Nat) : (u32_to_le_bytes x).length = 4 := rfl

lemma u32_from_le_to_le (x : Nat) (hx : x < 2 ^ 32) :
    u32_from_le (u32_to_le_bytes x) = x := by
  simp only [u32_to_le_bytes, u32_from_le, List.getD, List.get?, Option.getD_some]
  omega

lemma HostCommand.toU32_lt (c : HostCommand) : c.toU32 < 2 ^ 32 := by
  cases c <;> simp [HostCommand.toU32]

lemma header_to_bytes_take_drop (h : Header) :
    (h.to_bytes.take 4 = u32_to_le_bytes h.magic) ∧
    ((h.to_bytes.drop 4).take 4 = u32_to_le_bytes h.version) ∧
    ((h.to_bytes.drop 8).take 4 = u32_to_le_bytes h.command) ∧
    ((h.to_bytes.drop 12).take 4 = u32_to_le_bytes h.payload_size) := by
  simp [Header.to_bytes, u32_to_le_bytes]

/-- C7: for every command and payload size that fits in 32 bits,
decoding the encoded request header reproduces it field for field, and
`Header::new(LoadPlugin, 1028)` serializes to exactly the 16 bytes
`52 57 4E 48 | 01 00 00 00 | 02 00 00 00 | 04 04 00 00`. -/
theorem claim_C7_header_roundtrip (cmd : HostCommand) (ps : Nat) (hps : ps < 2 ^ 32) :
    Header.from_bytes ((Header.new cmd ps).to_bytes) = Header.new cmd ps ∧
    (Header.new HostCommand.LoadPlugin 1028).to_bytes =
      [0x52, 0x57, 0x4E, 0x48, 0x01, 0x00, 0x00, 0x00,
       0x02, 0x00, 0x00, 0x00, 0x04, 0x04, 0x00, 0x00] := by
  constructor
  · have h4 := header_to_bytes_take_drop (Header.new cmd ps)
    simp only [Header.from_bytes, h4.1, h4.2.1, h4.2.2.1, h4.2.2.2]
    have hm : (Header.new cmd ps).magic < 2 ^ 32 := by
      simp [Header.new, RACK_WINE_MAGIC]
    have hv : (Header.new cmd ps).version < 2 ^ 32 := by
      simp [Header.new, RACK_WINE_PROTOCOL_VERSION]
    have hc : (Header.new cmd ps).command < 2 ^ 32 := HostCommand.toU32_lt cmd
    have hp : (Header.new cmd ps).payload_size < 2 ^ 32 := hps
    simp [u32_from_le_to_le _ hm, u32_from_le_to_le _ hv,
      u32_from_le_to_le _ hc, u32_from_le_to_le _ hp]
  · decide

/-- Witness for C7 at `(LoadPlugin, 1028)`. -/
theorem claim_C7_header_roundtrip_witness :
    Header.from_bytes ((Header.new HostCommand.LoadPlugin 1028).to_bytes) =
      Header.new HostCommand.LoadPlugin 1028 :=
  (claim_C7_header_roundtrip HostCommand.LoadPlugin 1028 (by decide)).1

/-- The `CMD_LOAD_PLUGIN` payload: a 1024-byte NUL-padded path field plus
a u32 class index (`CmdLoadPlugin` in `protocol.rs`). -/
structure CmdLoadPlugin where
  path : List Nat
  class_index : Nat
deriving DecidableEq, Repr

/-- `CmdLoadPlugin::new`: copies at most 1023 path bytes into the
zero-initialized 1024-byte field. -/
def CmdLoadPlugin.new (path : List Nat) (class_index : Nat) : CmdLoadPlugin :=
  let len := min path.length 1023
  { path := path.take len ++ List.replicate (1024 - len) 0
    class_index := class_index }

/-- `CmdLoadPlugin::to_bytes`: the path field then the little-endian
class index, 1028 bytes. -/
def CmdLoadPlugin.to_bytes (cmd : CmdLoadPlugin) : List Nat :=
  cmd.path ++ u32_to_le_bytes cmd.class_index

/-- The `CMD_INIT_AUDIO` payload (`CmdInitAudio` in `protocol.rs`). -/
structure CmdInitAudio where
  sample_rate : Nat
  block_size : Nat
  num_inputs : Nat
  num_outputs : Nat
  shm_name : List Nat
deriving DecidableEq, Repr

/-- `CmdInitAudio::new`: copies at most 63 name bytes into the
zero-initialized 64-byte field. -/
def CmdInitAudio.new (sample_rate block_size num_inputs num_outputs : Nat)
    (shm_name : List Nat) : CmdInitAudio :=
  let len := min shm_name.length 63
  { sample_rate := sample_rate
    block_size := block_size
    num_inputs := num_inputs
    num_outputs := num_outputs
    shm_name := shm_name.take len ++ List.replicate (64 - len) 0 }

/-- `CmdInitAudio::to_bytes`: four little-endian u32 fields then the
64-byte name field, 80 bytes. -/
def CmdInitAudio.to_bytes (cmd : CmdInitAudio) : List Nat :=
  u32_to_le_bytes cmd.sample_rate ++ u32_to_le_bytes cmd.block_size ++
    u32_to_le_bytes cmd.num_inputs ++ u32_to_le_bytes cmd.num_outputs ++ cmd.shm_name

lemma take_min_length (l : List Nat) (n : Nat) : l.take (min l.length n) = l.take n := by
  rcases le_total l.length n with h | h
  · rw [min_eq_left h, List.take_length, List.take_of_length_le h]
  · rw [min_eq_right h]

lemma pad_field_getD_zero (l : List Nat) (cap len : Nat) (hlen : len = min l.length cap) :
    (l.take len ++ List.replicate (1 + cap - len) 0).getD len 999 = 0 := by
  have hl : (l.take len).length = len := by
    rw [List.length_take]
    omega
  rw [List.getD_append_right _ _ _ _ hl.le]
  have h0 : len - (l.take len).length = 0 := by omega
  rw [h0]
  have hpos : 0 < 1 + cap - len := by omega
  cases hrep : (1 + cap - len) with
  | zero => omega
  | succ k => simp [List.replicate_succ, List.getD]

/-- C8: `CmdLoadPlugin::new(path, k)` truncates the path to at most 1023
bytes inside a NUL-padded 1024-byte field (with at least one terminating
NUL), serializes to that field followed by `k` little-endian (1028 bytes
total); `CmdInitAudio::new` likewise truncates the shared-region name to
at most 63 bytes inside its NUL-padded 64-byte field and serializes to
80 bytes. -/
theorem claim_C8_fixed_width_strings (p : List Nat) (k : Nat)
    (sr bs ni no : Nat) (s : List Nat) :
    (CmdLoadPlugin.new p k).path =
      p.take 1023 ++ List.replicate (1024 - min p.length 1023) 0 ∧
    (CmdLoadPlugin.new p k).path.length = 1024 ∧
    (CmdLoadPlugin.new p k).path.getD (min p.length 1023) 999 = 0 ∧
    (CmdLoadPlugin.new p k).to_bytes =
      (CmdLoadPlugin.new p k).path ++ u32_to_le_bytes k ∧
    (CmdLoadPlugin.new p k).to_bytes.length = 1028 ∧
    (CmdInitAudio.new sr bs ni no s).shm_name =
      s.take 63 ++ List.replicate (64 - min s.length 63) 0 ∧
    (CmdInitAudio.new sr bs ni no s).shm_name.length = 64 ∧
    (CmdInitAudio.new sr bs ni no s).shm_name.getD (min s.length 63) 999 = 0 ∧
    (CmdInitAudio.new sr bs ni no s).to_bytes.length = 80 := by
  have hp1 : (CmdLoadPlugin.new p k).path =
      p.take 1023 ++ List.replicate (1024 - min p.length 1023) 0 := by
    simp only [CmdLoadPlugin.new, take_min_length]
  have hplen : (CmdLoadPlugin.new p k).path.length = 1024 := by
    rw [hp1]
    simp only [List.length_append, List.length_take, List.length_replicate]
    omega
  have hs1 : (CmdInitAudio.new sr bs ni no s).shm_name =
      s.take 63 ++ List.replicate (64 - min s.length 63) 0 := by
    simp only [CmdInitAudio.new, take_min_length]
  have hslen : (CmdInitAudio.new sr bs ni no s).shm_name.length = 64 := by
    rw [hs1]
    simp only [List.length_append, List.length_take, List.length_replicate]
    omega
  refine ⟨hp1, hplen, ?_, rfl, ?_, hs1, hslen, ?_, ?_⟩
  · have := pad_field_getD_zero p 1023 (min p.length 1023) rfl
    simpa [CmdLoadPlugin.new] using this
  · simp only [CmdLoadPlugin.to_bytes, List.length_append, hplen, u32_to_le_bytes_length]
  · have := pad_field_getD_zero s 63 (min s.length 63) rfl
    simpa [CmdInitAudio.new] using this
  · simp only [CmdInitAudio.to_bytes, List.length_append, hslen, u32_to_le_bytes_length]

/-- Field extraction used by the response decoders: the bytes up to the
first NUL, or the whole field (`read_string` in `protocol.rs`; the
`String::from_utf8_lossy` step is kept as the raw byte sequence). -/
def read_string (data : List Nat) (max_len : Nat) : List Nat :=
  let e := match data.findIdx? (fun b => b = 0) with
    | some i => i
    | none => max_len
  data.take e

/-- The decoded `GetInfo` reply (`RespPluginInfo` in `protocol.rs`);
string fields are byte sequences. -/
structure RespPluginInfo where
  name : List Nat
  vendor : List Nat
  category : List Nat
  uid : List Nat
  num_params : Nat
  num_audio_inputs : Nat
  num_audio_outputs : Nat
  flags : Nat
deriving DecidableEq, Repr

/-- `RespPluginInfo::from_bytes`: absent below 716 bytes; the `flags`
field is read only when at least 720 bytes are present. -/
def RespPluginInfo.from_bytes (buf : List Nat) : Option RespPluginInfo :=
  if buf.length < 716 then none
  else some
    { name := read_string (buf.take 256) 256
      vendor := read_string ((buf.drop 256).take 256) 256
      category := read_string ((buf.drop 512).take 128) 128
      uid := read_string ((buf.drop 640).take 64) 64
      num_params := u32_from_le ((buf.drop 704).take 4)
      num_audio_inputs := u32_from_le ((buf.drop 708).take 4)
      num_audio_outputs := u32_from_le ((buf.drop 712).take 4)
      flags := if 720 <= buf.length then u32_from_le ((buf.drop 716).take 4) else 0 }

/-- The decoded `GetParamInfo` reply (`RespParamInfo` in `protocol.rs`);
the three `f64` fields are carried as 64-bit little-endian bit
patterns. -/
structure RespParamInfo where
  id : Nat
  name : List Nat
  units : List Nat
  default_value : Nat
  min_value : Nat
  max_value : Nat
  flags : Nat
deriving DecidableEq, Repr

/-- `RespParamInfo::from_bytes`: absent below 196 bytes. -/
def RespParamInfo.from_bytes (buf : List Nat) : Option RespParamInfo :=
  if buf.length < 196 then none
  else some
    { id := u32_from_le (buf.take 4)
      name := read_string ((buf.drop 4).take 128) 128
      units := read_string ((buf.drop 132).take 32) 32
      default_value := u64_from_le ((buf.drop 164).take 8)
      min_value := u64_from_le ((buf.drop 172).take 8)
      max_value := u64_from_le ((buf.drop 180).take 8)
      flags := u32_from_le ((buf.drop 188).take 4) }

/-- The decoded `OpenEditor` reply (`RespEditorInfo` in `protocol.rs`). -/
structure RespEditorInfo where
  x11_window_id : Nat
  width : Nat
  height : Nat
deriving DecidableEq, Repr

/-- `RespEditorInfo::from_bytes`: absent below 12 bytes. -/
def RespEditorInfo.from_bytes (buf : List Nat) : Option RespEditorInfo :=
  if buf.length < 12 then none
  else some
    { x11_window_id := u32_from_le (buf.take 4)
      width := u32_from_le ((buf.drop 4).take 4)
      height := u32_from_le ((buf.drop 8).take 4) }

/-- C9: each payload decoder returns `none` (absent), never an error
status, exactly when the input is below its minimum: `RespPluginInfo`
below 716 bytes (in particular on 715 zero bytes), with `flags = 0` for
lengths 716..719 and `flags` read from bytes 716..720 once the length
reaches 720; `RespParamInfo` returns `none` exactly below 196 bytes. -/
theorem claim_C9_decoder_minimums (buf buf2 : List Nat) :
    ((RespPluginInfo.from_bytes buf).isNone = true ↔ buf.length < 716) ∧
    RespPluginInfo.from_bytes (List.replicate 715 0) = none ∧
    (716 <= buf.length → buf.length < 720 →
      ∃ r, RespPluginInfo.from_bytes buf = some r ∧ r.flags = 0) ∧
    (720 <= buf.length →
      ∃ r, RespPluginInfo.from_bytes buf = some r ∧
        r.flags = u32_from_le ((buf.drop 716).take 4)) ∧
    ((RespParamInfo.from_bytes buf2).isNone = true ↔ buf2.length < 196) := by
  have hsome : 716 <= buf.length → RespPluginInfo.from_bytes buf = some
      { name := read_string (buf.take 256) 256
        vendor := read_string ((buf.drop 256).take 256) 256
        category := read_string ((buf.drop 512).take 128) 128
        uid := read_string ((buf.drop 640).take 64) 64
        num_params := u32_from_le ((buf.drop 704).take 4)
        num_audio_inputs := u32_from_le ((buf.drop 708).take 4)
        num_audio_outputs := u32_from_le ((buf.drop 712).take 4)
        flags := if 720 <= buf.length then u32_from_le ((buf.drop 716).take 4) else 0 } := by
    intro h1
    unfold RespPluginInfo.from_bytes
    rw [if_neg (by omega)]
  refine ⟨?_, by decide, ?_, ?_, ?_⟩
  · unfold RespPluginInfo.from_bytes
    by_cases h : buf.length < 716 <;> simp [h]
  · intro h1 h2
    exact ⟨_, hsome h1, by simp [if_neg (show ¬ 720 <= buf.length by omega)]⟩
  · intro h1
    exact ⟨_, hsome (by omega), by simp [if_pos h1]⟩
  · unfold RespParamInfo.from_bytes
    by_cases h : buf2.length < 196 <;> simp [h]

/-- Witness for C9 on concrete buffers of lengths 717 and 100. -/
theorem claim_C9_decoder_minimums_witness :
    (∃ r, RespPluginInfo.from_bytes (List.replicate 717 0) = some r ∧ r.flags = 0) ∧
    ((RespParamInfo.from_bytes (List.replicate 100 0)).isNone = true ↔
      (List.replicate (α := Nat) 100 0).length < 196) := by
  have h := claim_C9_decoder_minimums (List.replicate 717 0) (List.replicate 100 0)
  exact ⟨h.2.2.1 (by simp) (by simp), h.2.2.2.2⟩

/-- Error taxonomy of the host crate as used by `wine_host`
(`crate::Error` variants reachable from this module). -/
inductive PluginError
  | NotInitialized
  | InvalidParameter (index : Nat)
  | Other (msg : String)
deriving DecidableEq, Repr

/-- The shared-memory header (`ShmHeader` in `protocol.rs`): fourteen
u32 fields laid out `#[repr(C)]`. -/
structure ShmHeader where
  magic : Nat
  version : Nat
  num_inputs : Nat
  num_outputs : Nat
  block_size : Nat
  sample_rate : Nat
  host_ready : Nat
  client_ready : Nat
  input_offset : Nat
  output_offset : Nat
  reserved : List Nat
deriving DecidableEq, Repr

/-- `ShmHeader::SIZE = size_of::<ShmHeader>()`: fourteen packed u32
fields under `#[repr(C)]`, 56 bytes. -/
def ShmHeader.SIZE : Nat := 56

/-- Total size of the shared region computed in `setup_shared_memory`:
`header_size + (num_inputs + num_outputs) * block_size * size_of::<f32>()`. -/
def shm_total_size (block_size num_inputs num_outputs : Nat) : Nat :=
  ShmHeader.SIZE + (num_inputs + num_outputs) * block_size * 4

/-- The header stamped by `WineVst3Plugin::setup_shared_memory` right
after mapping the region.  `sample_rate` arrives already cast to u32;
the counts and offsets are written through `as u32` casts, modelled by
`% 2 ^ 32`. -/
def setup_shared_memory_header (sample_rate block_size num_inputs num_outputs : Nat) :
    ShmHeader :=
  { magic := RACK_WINE_SHM_MAGIC
    version := RACK_WINE_PROTOCOL_VERSION
    num_inputs := num_inputs % 2 ^ 32
    num_outputs := num_outputs % 2 ^ 32
    block_size := block_size % 2 ^ 32
    sample_rate := sample_rate % 2 ^ 32
    host_ready := 0
    client_ready := 0
    input_offset := ShmHeader.SIZE % 2 ^ 32
    output_offset := (ShmHeader.SIZE + num_inputs * block_size * 4) % 2 ^ 32
    reserved := [0, 0, 0, 0] }

/-- C2: immediately after arming, the shared header carries the
shared-memory magic `0x52574153` and version 1, `input_offset` equals
`sizeof(ShmHeader)`, `output_offset` equals
`input_offset + num_inputs * block_size * 4`, and the mapped region size
equals `sizeof(ShmHeader) + (num_inputs + num_outputs) * block_size * 4`,
which is at least `output_offset + num_outputs * block_size * 4`
(stated for regions whose size is representable in 32 bits, as required
for the offsets the header stores). -/
theorem claim_C2_shm_header_after_arming (sample_rate block_size num_inputs num_outputs : Nat)
    (hsz : shm_total_size block_size num_inputs num_outputs < 2 ^ 32) :
    (setup_shared_memory_header sample_rate block_size num_inputs num_outputs).magic =
      0x52574153 ∧
    (setup_shared_memory_header sample_rate block_size num_inputs num_outputs).version = 1 ∧
    (setup_shared_memory_header sample_rate block_size num_inputs num_outputs).input_offset =
      ShmHeader.SIZE ∧
    (setup_shared_memory_header sample_rate block_size num_inputs num_outputs).output_offset =
      (setup_shared_memory_header sample_rate block_size num_inputs num_outputs).input_offset +
        num_inputs * block_size * 4 ∧
    shm_total_size block_size num_inputs num_outputs =
      ShmHeader.SIZE + (num_inputs + num_outputs) * block_size * 4 ∧
    (setup_shared_memory_header sample_rate block_size num_inputs num_outputs).output_offset +
        num_outputs * block_size * 4 <=
      shm_total_size block_size num_inputs num_outputs := by
  have hin : num_inputs * block_size * 4 + num_outputs * block_size * 4 =
      (num_inputs + num_outputs) * block_size * 4 := by ring
  have h1 : ShmHeader.SIZE + num_inputs * block_size * 4 < 2 ^ 32 := by
    simp only [shm_total_size] at hsz
    omega
  constructor
  · rfl
  constructor
  · rfl
  constructor
  · rfl
  constructor
  · simp only [setup_shared_memory_header]
    rw [Nat.mod_eq_of_lt h1, Nat.mod_eq_of_lt (by simp [ShmHeader.SIZE])]
  constructor
  · rfl
  · simp only [setup_shared_memory_header, shm_total_size]
    rw [Nat.mod_eq_of_lt h1]
    omega

/-- Witness for C2 at sample rate 48000, block size 256, 2 inputs and
2 outputs. -/
theorem claim_C2_shm_header_after_arming_witness :
    (setup_shared_memory_header 48000 256 2 2).magic = 0x52574153 ∧
    (setup_shared_memory_header 48000 256 2 2).output_offset =
      (setup_shared_memory_header 48000 256 2 2).input_offset + 2 * 256 * 4 := by
  have h := claim_C2_shm_header_after_arming 48000 256 2 2 (by decide)
  exact ⟨h.1, h.2.2.2.1⟩

/-- `WineVst3Plugin::get_parameter`: the cached id table is the only
state consulted; no wire exchange is modelled because the source method
performs none. -/
def WineVst3Plugin.get_parameter (param_ids : List Nat) (index : Nat) :
    Except PluginError Nat :=
  if param_ids.length <= index then
    Except.error (PluginError.InvalidParameter index)
  else
    Except.error (PluginError.Other "get_parameter requires mutable reference")

/-- C10: `get_parameter` returns an error for every session state and
index: the invalid-parameter error when the index is at or beyond the
cached id-table length, and otherwise an error as well (no value is ever
returned, and no wire exchange occurs - the definition consults only the
cached table). -/
theorem claim_C10_get_parameter_always_errors (param_ids : List Nat) (index : Nat) :
    WineVst3Plugin.get_parameter param_ids index =
      Except.error (if param_ids.length <= index then PluginError.InvalidParameter index
        else PluginError.Other "get_parameter requires mutable reference") := by
  unfold WineVst3Plugin.get_parameter
  by_cases h : param_ids.length <= index <;> simp [h]

/-- The parameter-id gathering loop of `WineVst3Plugin::new`: for each
index below the advertised count, the id from a successful
`GetParamInfo` reply is pushed; a failed reply is silently skipped
(`if let Ok(info) = client.get_param_info(i)`). -/
def collect_param_ids (num_params : Nat)
    (replies : Nat → Except PluginError RespParamInfo) : List Nat :=
  (List.range num_params).filterMap (fun i => ((replies i).toOption).map (fun info => info.id))

/-- `WineVst3Plugin::parameter_count`: the length of the cached id
table. -/
def WineVst3Plugin.parameter_count (param_ids : List Nat) : Nat :=
  param_ids.length

lemma length_filterMap_map_eq_length_filter {α β γ : Type} (g : α → Option β) (f : β → γ)
    (l : List α) :
    (l.filterMap (fun a => (g a).map f)).length =
      (l.filter (fun a => (g a).isSome)).length := by
  induction l with
  | nil => rfl
  | cons x xs ih =>
    cases hx : g x <;>
      simp [List.filterMap_cons, List.filter_cons, hx, ih]

/-- C3 counterexample: with one advertised parameter whose
`GetParamInfo` reply fails, construction still succeeds but the cached
id table is empty, so its length differs from the advertised count 1. -/
theorem claim_C3_counterexample :
    (collect_param_ids 1 (fun _ => Except.error PluginError.NotInitialized)).length = 0 ∧
    (collect_param_ids 1 (fun _ => Except.error PluginError.NotInitialized)).length ≠ 1 := by
  constructor <;> decide

/-- C3 (amended): the cached id table has one entry per index below the
advertised count whose `GetParamInfo` reply succeeded; when every reply
succeeds the table length and `parameter_count()` equal the advertised
`num_params`. -/
theorem claim_C3_param_ids_length (num_params : Nat)
    (replies : Nat → Except PluginError RespParamInfo) :
    (collect_param_ids num_params replies).length =
      ((List.range num_params).filter (fun i => ((replies i).toOption).isSome)).length ∧
    ((∀ i, i < num_params → ((replies i).toOption).isSome = true) →
      (collect_param_ids num_params replies).length = num_params ∧
      WineVst3Plugin.parameter_count (collect_param_ids num_params replies) = num_params) := by
  constructor
  · exact length_filterMap_map_eq_length_filter _ _ _
  · intro hall
    have hfilter : (List.range num_params).filter (fun i => ((replies i).toOption).isSome) =
        List.range num_params := by
      apply List.filter_eq_self.mpr
      intro i hi
      exact hall i (List.mem_range.mp hi)
    have hlen : (collect_param_ids num_params replies).length = num_params := by
      rw [collect_param_ids, length_filterMap_map_eq_length_filter, hfilter, List.length_range]
    exact ⟨hlen, hlen⟩

/-- Witness for C3 (amended) at two parameters whose replies both
succeed. -/
theorem claim_C3_param_ids_length_witness :
    (collect_param_ids 2 (fun i => Except.ok
      { id := i, name := [], units := [], default_value := 0, min_value := 0,
        max_value := 0, flags := 0 })).length = 2 := by
  have h := claim_C3_param_ids_length 2 (fun i => Except.ok
    { id := i, name := [], units := [], default_value := 0, min_value := 0,
      max_value := 0, flags := 0 })
  exact (h.2 (by intro i hi; rfl)).1

/-- Semantic MIDI event kinds of the host crate (`crate::MidiEventKind`):
the seven kinds matched explicitly in `WineVst3Plugin::send_midi`, plus
the system real-time kind that falls to the catch-all arm.  Data bytes
are u8 values; the pitch-bend value is a 14-bit quantity. -/
inductive MidiEventKind
  | NoteOn (note velocity channel : Nat)
  | NoteOff (note velocity channel : Nat)
  | ControlChange (controller value channel : Nat)
  | ProgramChange (program channel : Nat)
  | PitchBend (value channel : Nat)
  | PolyphonicAftertouch (note pressure channel : Nat)
  | ChannelAftertouch (pressure channel : Nat)
  | SystemRealTime
deriving DecidableEq, Repr

/-- A semantic MIDI event of the host crate (`crate::MidiEvent`): a
sample offset within the current block plus a kind. -/
structure HostMidiEvent where
  sample_offset : Nat
  kind : MidiEventKind
deriving DecidableEq, Repr

/-- A wire MIDI event (`MidiEvent` in `protocol.rs`): u32 sample offset
plus a 4-byte data record. -/
structure MidiEvent where
  sample_offset : Nat
  data : List Nat
deriving DecidableEq, Repr

/-- `MidiEvent::new`: status, data1, data2 and a zero pad byte. -/
def MidiEvent.new (sample_offset status data1 data2 : Nat) : MidiEvent :=
  { sample_offset := sample_offset, data := [status, data1, data2, 0] }

/-- `MidiEvent::to_bytes`: little-endian sample offset then the 4 data
bytes, 8 bytes in all. -/
def MidiEvent.to_bytes (e : MidiEvent) : List Nat :=
  u32_to_le_bytes e.sample_offset ++ e.data

/-- The status/data mapping of `WineVst3Plugin::send_midi`: the kind
selects the status high nibble, the channel is OR'd in masked to 4 bits,
and the catch-all arm maps system real-time to `(0, 0, 0)`. -/
def encode_midi_kind : MidiEventKind → Nat × Nat × Nat
  | .NoteOn note velocity channel => (0x90 ||| (channel &&& 0x0F), note, velocity)
  | .NoteOff note velocity channel => (0x80 ||| (channel &&& 0x0F), note, velocity)
  | .ControlChange controller value channel => (0xB0 ||| (channel &&& 0x0F), controller, value)
  | .ProgramChange program channel => (0xC0 ||| (channel &&& 0x0F), program, 0)
  | .PitchBend value channel =>
      (0xE0 ||| (channel &&& 0x0F), value &&& 0x7F, (value >>> 7) &&& 0x7F)
  | .PolyphonicAftertouch note pressure channel => (0xA0 ||| (channel &&& 0x0F), note, pressure)
  | .ChannelAftertouch pressure channel => (0xD0 ||| (channel &&& 0x0F), pressure, 0)
  | .SystemRealTime => (0, 0, 0)

/-- Translation of one semantic event to a wire event, as performed in
the `map` of `WineVst3Plugin::send_midi`. -/
def encode_midi_event (e : HostMidiEvent) : MidiEvent :=
  match encode_midi_kind e.kind with
  | (status, data1, data2) => MidiEvent.new e.sample_offset status data1 data2

/-- `CmdMidi::to_bytes`: the little-endian event count. -/
def CmdMidi.to_bytes (num_events : Nat) : List Nat :=
  u32_to_le_bytes num_events

/-- The `SendMidi` payload built by `WineClient::send_midi`: the event
count (`events.len() as u32`) followed by every event's 8 bytes. -/
def WineClient.send_midi_payload (events : List MidiEvent) : List Nat :=
  CmdMidi.to_bytes (events.length % 2 ^ 32) ++ (events.map MidiEvent.to_bytes).flatten

/-- The full `SendMidi` payload for a list of semantic events, as sent
by `WineVst3Plugin::send_midi`. -/
def WineVst3Plugin.send_midi_payload (events : List HostMidiEvent) : List Nat :=
  WineClient.send_midi_payload (events.map encode_midi_event)

/-- C6: `NoteOn{note=60, velocity=100, channel=0}` at sample offset 128
serializes to `80 00 00 00 90 3C 64 00`; `PitchBend{value=8192,
channel=3}` maps to status `0xE3`, data1 `0x00`, data2 `0x40`; and for
every kind the channel is OR'd into the status low nibble masked to
4 bits. -/
theorem claim_C6_midi_encoding :
    (encode_midi_event { sample_offset := 128, kind := MidiEventKind.NoteOn 60 100 0 }).to_bytes =
      [0x80, 0x00, 0x00, 0x00, 0x90, 0x3C, 0x64, 0x00] ∧
    encode_midi_kind (MidiEventKind.PitchBend 8192 3) = (0xE3, 0x00, 0x40) ∧
    (∀ n v ch, encode_midi_kind (.NoteOn n v ch) = (0x90 ||| (ch &&& 0x0F), n, v)) ∧
    (∀ n v ch, encode_midi_kind (.NoteOff n v ch) = (0x80 ||| (ch &&& 0x0F), n, v)) ∧
    (∀ c v ch, encode_midi_kind (.ControlChange c v ch) = (0xB0 ||| (ch &&& 0x0F), c, v)) ∧
    (∀ p ch, encode_midi_kind (.ProgramChange p ch) = (0xC0 ||| (ch &&& 0x0F), p, 0)) ∧
    (∀ v ch, encode_midi_kind (.PitchBend v ch) =
      (0xE0 ||| (ch &&& 0x0F), v &&& 0x7F, (v >>> 7) &&& 0x7F)) ∧
    (∀ n p ch, encode_midi_kind (.PolyphonicAftertouch n p ch) = (0xA0 ||| (ch &&& 0x0F), n, p)) ∧
    (∀ p ch, encode_midi_kind (.ChannelAftertouch p ch) = (0xD0 ||| (ch &&& 0x0F), p, 0)) := by
  refine ⟨by decide, by decide, ?_, ?_, ?_, ?_, ?_, ?_, ?_⟩ <;> intros <;> rfl

/-- C4 counterexample: a single system real-time event still contributes
an 8-byte record of zeros, and the leading count is 1, not the number of
non-system-real-time events (0); the payload is 12 bytes, not the 4 a
dropped event would leave. -/
theorem claim_C4_counterexample :
    WineVst3Plugin.send_midi_payload
        [{ sample_offset := 0, kind := MidiEventKind.SystemRealTime }] =
      [1, 0, 0, 0, 0, 0, 0, 0, 0, 0, 0, 0] ∧
    u32_from_le (WineVst3Plugin.send_midi_payload
        [{ sample_offset := 0, kind := MidiEventKind.SystemRealTime }]) ≠ 0 := by
  constructor <;> decide

/-- C4 (amended): system real-time events are not dropped from the
`SendMidi` payload: every input event, system real-time included,
contributes exactly one 8-byte record (with status, data1 and data2 all
zero for system real-time), and the leading 32-bit count is the total
number of input events (taken mod `2 ^ 32`). -/
theorem claim_C4_midi_realtime_not_dropped (events : List HostMidiEvent) :
    (WineVst3Plugin.send_midi_payload events).length = 4 + 8 * events.length ∧
    (WineVst3Plugin.send_midi_payload events).take 4 =
      u32_to_le_bytes (events.length % 2 ^ 32) ∧
    (∀ e, e ∈ events → e.kind = MidiEventKind.SystemRealTime →
      (encode_midi_event e).to_bytes = u32_to_le_bytes e.sample_offset ++ [0, 0, 0, 0]) := by
  refine ⟨?_, ?_, ?_⟩
  · have hjoin : ((events.map encode_midi_event).map MidiEvent.to_bytes).flatten.length =
        8 * events.length := by
      induction events with
      | nil => rfl
      | cons x xs ih =>
        simp only [List.map_cons, List.flatten_cons, List.length_append, ih]
        have hx : (encode_midi_event x).to_bytes.length = 8 := by
          simp [encode_midi_event, MidiEvent.new, MidiEvent.to_bytes, u32_to_le_bytes]
        rw [hx]
        simp [List.length_cons]
        ring
    simp only [WineVst3Plugin.send_midi_payload, WineClient.send_midi_payload,
      CmdMidi.to_bytes, List.length_append, u32_to_le_bytes_length, hjoin,
      List.length_map]
  · simp only [WineVst3Plugin.send_midi_payload, WineClient.send_midi_payload,
      CmdMidi.to_bytes, List.length_map]
    rw [List.take_append_of_le_length (by simp [u32_to_le_bytes])]
    simp [u32_to_le_bytes]
  · intro e hmem hkind
    simp [encode_midi_event, hkind, encode_midi_kind, MidiEvent.new, MidiEvent.to_bytes]

/-- Witness for C4 (amended) on a two-event list containing a note-on
and a system real-time event. -/
theorem claim_C4_midi_realtime_not_dropped_witness :
    (WineVst3Plugin.send_midi_payload
      [{ sample_offset := 128, kind := MidiEventKind.NoteOn 60 100 0 },
       { sample_offset := 0, kind := MidiEventKind.SystemRealTime }]).length = 4 + 8 * 2 := by
  have h := claim_C4_midi_realtime_not_dropped
    [{ sample_offset := 128, kind := MidiEventKind.NoteOn 60 100 0 },
     { sample_offset := 0, kind := MidiEventKind.SystemRealTime }]
  exact h.1

/-- Modelled from the spec: the parameter-change record of a
`GetParamChanges` reply, `param_id` (u32) then `value` (f64), 12 bytes.
The `ParamChangeEvent` type and the `GetParamChanges` command code are
referenced by `src/wine_host/mod.rs` but their definitions are not under
`src/`; the record layout follows the spec's "Parameter change record
(reply only): `param_id` (u32), `value` (f64); 12 bytes per record,
preceded by a 32-bit count". -/
structure ParamChangeEvent where
  param_id : Nat
  value : Nat
deriving DecidableEq, Repr

/-- Modelled from the spec: decoding one 12-byte parameter-change
record, absent when fewer than 12 bytes remain. -/
def ParamChangeEvent.from_bytes (buf : List Nat) : Option ParamChangeEvent :=
  if buf.length < 12 then none
  else some
    { param_id := u32_from_le (buf.take 4)
      value := u64_from_le ((buf.drop 4).take 8) }

/-- The record loop of `WineClient::get_param_changes`: starting at
byte offset 4, up to `num_changes` records are read, stopping when fewer
than 12 bytes remain (`if offset + 12 > payload.len() { break; }`). -/
def get_param_changes_loop (payload : List Nat) (offset : Nat) :
    Nat → List ParamChangeEvent
  | 0 => []
  | n + 1 =>
    if payload.length < offset + 12 then []
    else
      match ParamChangeEvent.from_bytes (payload.drop offset) with
      | some c => c :: get_param_changes_loop payload (offset + 12) n
      | none => get_param_changes_loop payload (offset + 12) n

/-- `WineClient::get_param_changes` on the payload of an `Ok` reply: a
payload below 4 bytes yields the empty list, otherwise the leading
little-endian u32 count drives the record loop. -/
def WineClient.get_param_changes (payload : List Nat) : List ParamChangeEvent :=
  if payload.length < 4 then []
  else get_param_changes_loop payload 4 (u32_from_le (payload.take 4))

/-- `WineVst3Plugin::get_param_changes`: the decoded records as
`(param_id, value)` pairs. -/
def WineVst3Plugin.get_param_changes (payload : List Nat) : List (Nat × Nat) :=
  (WineClient.get_param_changes payload).map (fun c => (c.param_id, c.value))

lemma get_param_changes_loop_spec (payload : List Nat) :
    ∀ (n offset : Nat), offset + 12 * n <= payload.length →
      get_param_changes_loop payload offset n =
        (List.range n).map (fun i =>
          { param_id := u32_from_le ((payload.drop (offset + 12 * i)).take 4)
            value := u64_from_le ((payload.drop (offset + 12 * i + 4)).take 8) :
              ParamChangeEvent }) := by
  intro n
  induction n with
  | zero => intro offset h; rfl
  | succ k ih =>
    intro offset h
    have hdrop : (payload.drop offset).length = payload.length - offset :=
      List.length_drop _ _
    have hcond : ¬ payload.length < offset + 12 := by omega
    have hrec : ¬ (payload.drop offset).length < 12 := by omega
    have hsome : ParamChangeEvent.from_bytes (payload.drop offset) = some
        { param_id := u32_from_le ((payload.drop (offset + 12 * 0)).take 4)
          value := u64_from_le ((payload.drop (offset + 12 * 0 + 4)).take 8) } := by
      rw [ParamChangeEvent.from_bytes, if_neg hrec]
      have e0 : offset + 12 * 0 = offset := by omega
      have e4 : offset + 12 * 0 + 4 = offset + 4 := by omega
      rw [e0, e4, ← List.drop_drop]
    simp only [get_param_changes_loop, if_neg hcond, hsome, ih (offset + 12) (by omega)]
    rw [List.range_succ_eq_map, List.map_cons, List.map_map]
    congr 1
    apply List.map_congr_left
    intro i hi
    have e1 : offset + 12 + 12 * i = offset + 12 * Nat.succ i := by omega
    have e2 : offset + 12 + 12 * i + 4 = offset + 12 * Nat.succ i + 4 := by omega
    simp only [Function.comp_apply, e1, e2]

/-- C5: `get_param_changes` decodes the `Ok` reply payload as a 32-bit
count followed by 12-byte `(param_id, value)` records and returns the
decoded pairs; a payload below 4 bytes yields the empty list. -/
theorem claim_C5_get_param_changes (payload : List Nat) (n : Nat)
    (hcount : u32_from_le (payload.take 4) = n)
    (hlen : 4 + 12 * n <= payload.length) :
    (∀ short : List Nat, short.length < 4 →
      WineVst3Plugin.get_param_changes short = []) ∧
    WineVst3Plugin.get_param_changes payload =
      (List.range n).map (fun i =>
        (u32_from_le ((payload.drop (4 + 12 * i)).take 4),
         u64_from_le ((payload.drop (4 + 12 * i + 4)).take 8))) := by
  constructor
  · intro short hshort
    unfold WineVst3Plugin.get_param_changes WineClient.get_param_changes
    rw [if_pos hshort]
    rfl
  · unfold WineVst3Plugin.get_param_changes WineClient.get_param_changes
    rw [if_neg (by omega), hcount,
      get_param_changes_loop_spec payload n 4 (by omega), List.map_map]
    rfl

/-- Witness for C5 on a 16-byte payload with count 1, `param_id = 5` and
value bit pattern `0x40'0000'0000'0000'07` read little-endian. -/
theorem claim_C5_get_param_changes_witness :
    WineVst3Plugin.get_param_changes
        [1, 0, 0, 0, 5, 0, 0, 0, 7, 0, 0, 0, 0, 0, 0, 0x40] =
      [(5, 7 + 2 ^ 56 * 0x40)] := by
  have h := claim_C5_get_param_changes
    [1, 0, 0, 0, 5, 0, 0, 0, 7, 0, 0, 0, 0, 0, 0, 0x40] 1 (by decide) (by decide)
  rw [h.2]
  decide

/-- The mapped shared region as the host sees it in `process`: the
header structure at offset 0, and the f32 sample (as a 32-bit bit
pattern) whose 4 bytes start at a given byte offset of the region. -/
structure SharedRegion where
  header : ShmHeader
  sample_at : Nat → Nat

/-- One `copy_from_slice` of the input loop of `process`:
`dest[..copy_len].copy_from_slice(&input[..copy_len])` where `dest`
starts at byte `dest_offset`. -/
def write_samples (f : Nat → Nat) (dest_offset : Nat) (input : List Nat)
    (copy_len : Nat) : Nat → Nat :=
  (List.range copy_len).foldl
    (fun g i => Function.update g (dest_offset + 4 * i) (input.getD i 0)) f

/-- The input-copy loop of `process`: channels at index `num_inputs` and
beyond are skipped; each copied channel writes
`min(num_frames, len(input))` samples at
`input_offset + ch * block_size * 4`. -/
def copy_inputs (input_offset block_size num_inputs num_frames : Nat) :
    Nat → List (List Nat) → SharedRegion → SharedRegion
  | _, [], region => region
  | ch, input :: rest, region =>
    copy_inputs input_offset block_size num_inputs num_frames (ch + 1) rest
      (if ch < num_inputs then
        { region with
          sample_at := write_samples region.sample_at
            (input_offset + ch * block_size * 4) input (min num_frames input.length) }
       else region)

/-- One output channel after the output-copy loop of `process`: the
first `min(num_frames, len(output))` samples come from the shared region
at `output_offset + ch * block_size * 4`, the rest of the buffer is
kept. -/
def out_channel (region : SharedRegion) (output_offset block_size num_frames ch : Nat)
    (output : List Nat) : List Nat :=
  ((List.range (min num_frames output.length)).map
    (fun i => region.sample_at (output_offset + ch * block_size * 4 + 4 * i))) ++
    output.drop (min num_frames output.length)

/-- The output-copy loop of `process`: channels at index `num_outputs`
and beyond are left untouched. -/
def copy_outputs (region : SharedRegion) (output_offset block_size num_frames num_outputs : Nat) :
    Nat → List (List Nat) → List (List Nat)
  | _, [] => []
  | ch, output :: rest =>
    (if ch < num_outputs then out_channel region output_offset block_size num_frames ch output
     else output) ::
      copy_outputs region output_offset block_size num_frames num_outputs (ch + 1) rest

/-- `WineVst3Plugin::process`.  The `initialized` flag and `shm_ptr` are
the session fields checked first; `process_audio` stands for the
`ProcessAudio` exchange, taking the region as written by the input copy
to the region as visible after the `Ok` reply (the worker owns the
output half).  The returned pair is the wire result together with the
host's output buffers after the call (unchanged on every error path,
which in the source returns before the output copy). -/
def WineVst3Plugin.process (initialized : Bool) (shm_ptr : Option SharedRegion)
    (num_inputs num_outputs : Nat) (inputs outputs : List (List Nat)) (num_frames : Nat)
    (process_audio : SharedRegion → Except PluginError SharedRegion) :
    Except PluginError Unit × List (List Nat) :=
  if initialized = false then (Except.error PluginError.NotInitialized, outputs)
  else
    match shm_ptr with
    | none => (Except.error PluginError.NotInitialized, outputs)
    | some region =>
      let input_offset := region.header.input_offset
      let output_offset := region.header.output_offset
      let block_size := region.header.block_size
      match process_audio
          (copy_inputs input_offset block_size num_inputs num_frames 0 inputs region) with
      | Except.error e => (Except.error e, outputs)
      | Except.ok region2 =>
        (Except.ok (),
         copy_outputs region2 output_offset block_size num_frames num_outputs 0 outputs)

lemma out_channel_length (region : SharedRegion) (oo bs nf ch : Nat) (output : List Nat) :
    (out_channel region oo bs nf ch output).length = output.length := by
  simp only [out_channel, List.length_append, List.length_map, List.length_range,
    List.length_drop]
  omega

lemma out_channel_getD_lt (region : SharedRegion) (oo bs nf ch : Nat) (output : List Nat)
    (i : Nat) (hi : i < min nf output.length) :
    (out_channel region oo bs nf ch output).getD i 0 =
      region.sample_at (oo + ch * bs * 4 + 4 * i) := by
  unfold out_channel
  rw [List.getD_append _ _ _ _ (by simpa using hi)]
  rw [List.getD_eq_getElem _ _ (by simpa using hi)]
  simp

lemma out_channel_getD_ge (region : SharedRegion) (oo bs nf ch : Nat) (output : List Nat)
    (i : Nat) (hi : min nf output.length <= i) :
    (out_channel region oo bs nf ch output).getD i 0 = output.getD i 0 := by
  unfold out_channel
  rw [List.getD_append_right _ _ _ _ (by simpa using hi)]
  simp only [List.length_map, List.length_range]
  rw [List.getD_eq_getElem?_getD, List.getD_eq_getElem?_getD, List.getElem?_drop]
  have he : min nf output.length + (i - min nf output.length) = i := by omega
  rw [he]

lemma copy_outputs_getElem (region : SharedRegion) (oo bs nf no : Nat) :
    ∀ (outputs : List (List Nat)) (ch0 i : Nat),
      (copy_outputs region oo bs nf no ch0 outputs)[i]? =
        (outputs[i]?).map (fun output =>
          if ch0 + i < no then out_channel region oo bs nf (ch0 + i) output else output) := by
  intro outputs
  induction outputs with
  | nil => intro ch0 i; rfl
  | cons x xs ih =>
    intro ch0 i
    cases i with
    | zero =>
      simp only [copy_outputs, List.getElem?_cons_zero, Nat.add_zero]
      rfl
    | succ j =>
      have e : ch0 + 1 + j = ch0 + (j + 1) := by omega
      simp only [copy_outputs, List.getElem?_cons_succ]
      rw [ih (ch0 + 1) j, e]

lemma copy_outputs_length (region : SharedRegion) (oo bs nf no : Nat) :
    ∀ (outputs : List (List Nat)) (ch0 : Nat),
      (copy_outputs region oo bs nf no ch0 outputs).length = outputs.length := by
  intro outputs
  induction outputs with
  | nil => intro ch0; rfl
  | cons x xs ih =>
    intro ch0
    simp only [copy_outputs, List.length_cons, ih (ch0 + 1)]

lemma copy_outputs_getD (region : SharedRegion) (oo bs nf no : Nat)
    (outputs : List (List Nat)) (ch : Nat) (hch : ch < outputs.length) :
    (copy_outputs region oo bs nf no 0 outputs).getD ch [] =
      (if ch < no then out_channel region oo bs nf ch (outputs.getD ch [])
       else outputs.getD ch []) := by
  have h1 : outputs[ch]? = some (outputs.getD ch []) := by
    rw [List.getElem?_eq_getElem hch, List.getD_eq_getElem _ _ hch]
  rw [List.getD_eq_getElem?_getD, copy_outputs_getElem, h1]
  simp [Nat.zero_add]

/-- C1: on an armed session (`initialized` and a mapped region), when
the `ProcessAudio` exchange succeeds, `process` returns `Ok` and, for
each output channel `c < num_outputs` present in the host's array,
overwrites exactly the first `min(num_frames, len(outputs[c]))` samples
from the shared region at `output_offset + c * block_size * 4`, leaving
every later sample and every channel at index `num_outputs` or beyond
unchanged; on a session that is not armed, `process` returns the
not-initialized error with every output buffer unchanged. -/
theorem claim_C1_process_frame_effect (region region2 : SharedRegion)
    (num_inputs num_outputs : Nat) (inputs outputs : List (List Nat)) (num_frames : Nat)
    (process_audio : SharedRegion → Except PluginError SharedRegion)
    (hframes : num_frames <= region.header.block_size)
    (hwire : process_audio (copy_inputs region.header.input_offset region.header.block_size
        num_inputs num_frames 0 inputs region) = Except.ok region2) :
    (WineVst3Plugin.process true (some region) num_inputs num_outputs inputs outputs
        num_frames process_audio).1 = Except.ok () ∧
    (WineVst3Plugin.process true (some region) num_inputs num_outputs inputs outputs
        num_frames process_audio).2.length = outputs.length ∧
    (∀ ch, ch < outputs.length → ch < num_outputs →
      ((WineVst3Plugin.process true (some region) num_inputs num_outputs inputs outputs
          num_frames process_audio).2.getD ch []).length = (outputs.getD ch []).length ∧
      (∀ i, i < min num_frames (outputs.getD ch []).length →
        ((WineVst3Plugin.process true (some region) num_inputs num_outputs inputs outputs
            num_frames process_audio).2.getD ch []).getD i 0 =
          region2.sample_at (region.header.output_offset +
            ch * region.header.block_size * 4 + 4 * i)) ∧
      (∀ i, min num_frames (outputs.getD ch []).length <= i →
        ((WineVst3Plugin.process true (some region) num_inputs num_outputs inputs outputs
            num_frames process_audio).2.getD ch []).getD i 0 = (outputs.getD ch []).getD i 0)) ∧
    (∀ ch, ch < outputs.length → num_outputs <= ch →
      (WineVst3Plugin.process true (some region) num_inputs num_outputs inputs outputs
          num_frames process_audio).2.getD ch [] = outputs.getD ch []) ∧
    (∀ (shm : Option SharedRegion)
        (wire : SharedRegion → Except PluginError SharedRegion),
      WineVst3Plugin.process false shm num_inputs num_outputs inputs outputs num_frames wire =
        (Except.error PluginError.NotInitialized, outputs)) := by
  have hpr : WineVst3Plugin.process true (some region) num_inputs num_outputs inputs outputs
      num_frames process_audio =
      (Except.ok (), copy_outputs region2 region.header.output_offset
        region.header.block_size num_frames num_outputs 0 outputs) := by
    simp [WineVst3Plugin.process, hwire]
  refine ⟨by rw [hpr], ?_, ?_, ?_, ?_⟩
  · rw [hpr]
    exact copy_outputs_length _ _ _ _ _ _ _
  · intro ch hch hlt
    have hc := copy_outputs_getD region2 region.header.output_offset
      region.header.block_size num_frames num_outputs outputs ch hch
    rw [if_pos hlt] at hc
    refine ⟨?_, ?_, ?_⟩
    · rw [hpr]
      simp only [hc]
      exact out_channel_length _ _ _ _ _ _
    · intro i hi
      rw [hpr]
      simp only [hc]
      exact out_channel_getD_lt _ _ _ _ _ _ _ hi
    · intro i hi
      rw [hpr]
      simp only [hc]
      exact out_channel_getD_ge _ _ _ _ _ _ _ hi
  · intro ch hch hge
    have hc := copy_outputs_getD region2 region.header.output_offset
      region.header.block_size num_frames num_outputs outputs ch hch
    rw [if_neg (by omega)] at hc
    rw [hpr]
    simp only [hc]
  · intro shm wire
    simp [WineVst3Plugin.process]

/-- Witness for C1: an armed one-in/one-out session with block size 2,
a region whose every sample reads as bit pattern 3, and an identity
`ProcessAudio` exchange. -/
theorem claim_C1_process_frame_effect_witness :
    (WineVst3Plugin.process true
        (some { header := { magic := 0x52574153, version := 1, num_inputs := 1,
                            num_outputs := 1, block_size := 2, sample_rate := 48000,
                            host_ready := 0, client_ready := 0, input_offset := 56,
                            output_offset := 64, reserved := [0, 0, 0, 0] }
                sample_at := fun _ => 3 })
        1 1 [[1, 2]] [[0, 0, 0]] 2 Except.ok).1 = Except.ok () := by
  exact (claim_C1_process_frame_effect
    { header := { magic := 0x52574153, version := 1, num_inputs := 1,
                  num_outputs := 1, block_size := 2, sample_rate := 48000,
                  host_ready := 0, client_ready := 0, input_offset := 56,
                  output_offset := 64, reserved := [0, 0, 0, 0] }
      sample_at := fun _ => 3 }
    (copy_inputs 56 2 1 2 0 [[1, 2]]
      { header := { magic := 0x52574153, version := 1, num_inputs := 1,
                    num_outputs := 1, block_size := 2, sample_rate := 48000,
                    host_ready := 0, client_ready := 0, input_offset := 56,
                    output_offset := 64, reserved := [0, 0, 0, 0] }
        sample_at := fun _ => 3 })
    1 1 [[1, 2]] [[0, 0, 0]] 2 Except.ok (by decide) rfl).1

end Rack
